import Mathlib

/-!
Verification of the PLATEFO force/torque engine (src/platefo.py, src/setup.py)
against its natural-language specification.

Modelling conventions:
* pandas/numpy float columns are modelled as `List ℚ` (exact arithmetic);
* external numeric routines whose exact value does not matter for a claim
  (`numpy.sqrt`, `numpy.log10`, `functions_main.mag_azi2lat_lon`) are taken
  as explicit function parameters, so every definition stays executable;
* stateful dataframe mutation is modelled by explicit state passing: a step
  that mutates a table in place becomes a function returning the new table.
-/

/-- A slab table: one row per discretized trench segment.  Columns follow the
column names of the slabs DataFrame built in `src/setup.py` (`get_slabs`) and
used by the Force-Balance Solver in `src/platefo.py` (`compute_torques`).
Each field is one column; rows are aligned by list position. -/
structure SlabTable where
  lat : List ℚ
  lon : List ℚ
  trench_segment_length : List ℚ
  trench_normal_azimuth : List ℚ
  lower_plateID : List ℤ
  upper_plateID : List ℤ
  v_lower_plate_lat : List ℚ
  v_lower_plate_lon : List ℚ
  v_upper_plate_lat : List ℚ
  v_upper_plate_lon : List ℚ
  v_convergence_lat : List ℚ
  v_convergence_lon : List ℚ
  v_convergence_mag : List ℚ
  deriving DecidableEq

/-- The convergence-rate step of the Force-Balance Solver,
`src/platefo.py` lines 596-602:

  v_convergence_lat = new_slabs["v_lower_plate_lat"].values
  v_convergence_lon = new_slabs["v_lower_plate_lon"].values
  if not options["Mantle stationary trenches"]:
      v_convergence_lat -= new_slabs["v_upper_plate_lat"].values
      v_convergence_lon -= new_slabs["v_upper_plate_lon"].values
  v_convergence_mag = numpy.sqrt(v_convergence_lat**2 + v_convergence_lon**2)

`Series.values` returns the numpy buffer backing the column, so the in-place
`-=` writes through to the `v_lower_plate_lat` / `v_lower_plate_lon` columns
of the table.  This is modelled by returning a table whose
`v_lower_plate_lat` / `v_lower_plate_lon` fields hold the subtracted buffers
(unchanged when "Mantle stationary trenches" is set, because the `-=` is then
skipped and the alias is never written through).  `sqrt` is the elementwise
`numpy.sqrt`, kept abstract.  The returned list is the fresh
`v_convergence_mag` array (numpy allocates a new array for it; no column is
written by line 602). -/
def computeConvergenceRates (mantleStationaryTrenches : Bool) (sqrt : ℚ → ℚ)
    (t : SlabTable) : SlabTable × List ℚ :=
  let clat := if mantleStationaryTrenches then t.v_lower_plate_lat
    else t.v_lower_plate_lat.zipWith (· - ·) t.v_upper_plate_lat
  let clon := if mantleStationaryTrenches then t.v_lower_plate_lon
    else t.v_lower_plate_lon.zipWith (· - ·) t.v_upper_plate_lon
  let t' := { t with v_lower_plate_lat := clat, v_lower_plate_lon := clon }
  (t', clat.zipWith (fun a b => sqrt (a ^ 2 + b ^ 2)) clon)

/-- The explicit assignment of the convergence columns on the non-converged
branch, `src/platefo.py` line 610:

  new_slabs["v_convergence_lat"], new_slabs["v_convergence_lon"] =
      functions_main.mag_azi2lat_lon(v_convergence_mag, new_slabs.trench_normal_azimuth)
  new_slabs["v_convergence_mag"] = v_convergence_mag

`mag_azi2lat_lon` lives in `functions_main` (not under src/), so it is kept
abstract: it maps the magnitude and azimuth columns to a pair of component
columns. -/
def assignConvergence (magAzi2latLon : List ℚ → List ℚ → List ℚ × List ℚ)
    (t : SlabTable) (mag : List ℚ) : SlabTable :=
  let comps := magAzi2latLon mag t.trench_normal_azimuth
  { t with v_convergence_lat := comps.1, v_convergence_lon := comps.2,
           v_convergence_mag := mag }

/-- C4: at every iteration of the Force-Balance Solver, the recomputed
convergence velocity at each slab equals the lower-plate velocity minus the
upper-plate velocity component-wise, except when the case's "Mantle
stationary trenches" option is set, in which case it equals the lower-plate
velocity alone; its magnitude equals the Euclidean norm
`sqrt (lat^2 + lon^2)` of those components.  Here `t` is the slab table as
it stands when the step starts, so `t.v_lower_plate_lat` is the lower-plate
velocity before the aliasing `-=` overwrite. -/
theorem convergence_rate_is_lower_minus_upper
    (mantleStationaryTrenches : Bool) (sqrt : ℚ → ℚ) (t : SlabTable) :
    (computeConvergenceRates mantleStationaryTrenches sqrt t).2 =
      ((if mantleStationaryTrenches then t.v_lower_plate_lat
          else t.v_lower_plate_lat.zipWith (· - ·) t.v_upper_plate_lat).zipWith
        (fun a b => sqrt (a ^ 2 + b ^ 2))
        (if mantleStationaryTrenches then t.v_lower_plate_lon
          else t.v_lower_plate_lon.zipWith (· - ·) t.v_upper_plate_lon)) := by
  cases mantleStationaryTrenches <;> rfl

/-- C8: the convergence-rate step mutates the slab table in place: with
"Mantle stationary trenches" false, after the step the table's
`v_lower_plate_lat` / `v_lower_plate_lon` columns hold the convergence
components (lower minus upper) rather than the lower-plate velocity, because
the `-=` writes through the numpy buffer returned by `.values`; no other
column is changed by the step, and the subsequent explicit assignment
(line 610) changes exactly the three `v_convergence_*` columns. -/
theorem convergence_step_overwrites_lower_plate_velocity
    (sqrt : ℚ → ℚ) (magAzi2latLon : List ℚ → List ℚ → List ℚ × List ℚ)
    (t : SlabTable) :
    ((computeConvergenceRates false sqrt t).1.v_lower_plate_lat =
        t.v_lower_plate_lat.zipWith (· - ·) t.v_upper_plate_lat ∧
      (computeConvergenceRates false sqrt t).1.v_lower_plate_lon =
        t.v_lower_plate_lon.zipWith (· - ·) t.v_upper_plate_lon) ∧
    ((computeConvergenceRates false sqrt t).1.lat = t.lat ∧
      (computeConvergenceRates false sqrt t).1.lon = t.lon ∧
      (computeConvergenceRates false sqrt t).1.trench_segment_length =
        t.trench_segment_length ∧
      (computeConvergenceRates false sqrt t).1.trench_normal_azimuth =
        t.trench_normal_azimuth ∧
      (computeConvergenceRates false sqrt t).1.lower_plateID = t.lower_plateID ∧
      (computeConvergenceRates false sqrt t).1.upper_plateID = t.upper_plateID ∧
      (computeConvergenceRates false sqrt t).1.v_upper_plate_lat =
        t.v_upper_plate_lat ∧
      (computeConvergenceRates false sqrt t).1.v_upper_plate_lon =
        t.v_upper_plate_lon ∧
      (computeConvergenceRates false sqrt t).1.v_convergence_lat =
        t.v_convergence_lat ∧
      (computeConvergenceRates false sqrt t).1.v_convergence_lon =
        t.v_convergence_lon ∧
      (computeConvergenceRates false sqrt t).1.v_convergence_mag =
        t.v_convergence_mag) ∧
    (∀ mag : List ℚ, ∀ s : SlabTable,
      (assignConvergence magAzi2latLon s mag).lat = s.lat ∧
      (assignConvergence magAzi2latLon s mag).lon = s.lon ∧
      (assignConvergence magAzi2latLon s mag).trench_segment_length =
        s.trench_segment_length ∧
      (assignConvergence magAzi2latLon s mag).trench_normal_azimuth =
        s.trench_normal_azimuth ∧
      (assignConvergence magAzi2latLon s mag).lower_plateID = s.lower_plateID ∧
      (assignConvergence magAzi2latLon s mag).upper_plateID = s.upper_plateID ∧
      (assignConvergence magAzi2latLon s mag).v_lower_plate_lat =
        s.v_lower_plate_lat ∧
      (assignConvergence magAzi2latLon s mag).v_lower_plate_lon =
        s.v_lower_plate_lon ∧
      (assignConvergence magAzi2latLon s mag).v_upper_plate_lat =
        s.v_upper_plate_lat ∧
      (assignConvergence magAzi2latLon s mag).v_upper_plate_lon =
        s.v_upper_plate_lon ∧
      (assignConvergence magAzi2latLon s mag).v_convergence_mag = mag) := by
  refine ⟨⟨rfl, rfl⟩, ⟨rfl, rfl, rfl, rfl, rfl, rfl, rfl, rfl, rfl, rfl, rfl⟩,
    fun mag s => ⟨rfl, rfl, rfl, rfl, rfl, rfl, rfl, rfl, rfl, rfl, rfl⟩⟩

/-- Maximum absolute elementwise difference of two equal-length columns:
`numpy.max(abs(a - b))` from `src/platefo.py` line 605.  For nonempty
columns this equals the numpy value (all elements are `|·| ≥ 0`, so folding
from `0` is harmless); numpy raises on empty input, which no claim touches. -/
def maxAbsDiff (xs ys : List ℚ) : ℚ :=
  (xs.zipWith (fun a b => |a - b|) ys).foldr max 0

/-- The convergence tolerance of the Force-Balance Solver
(`< 1e-2`, `src/platefo.py` line 605). -/
def solverTol : ℚ := 1 / 100

/-- The per-iteration dynamics of the Force-Balance Solver
(`src/platefo.py` lines 551-616), with the parts implemented in
`functions_main` (not under src/) abstracted over a state type `σ` holding
the plate/point/slab tables:
* `compute` — lines 559-594: interface shear force (or pass-through copy),
  interface shear torque, mantle drag force, mantle drag torque, producing
  the `new_*` tables from the `old_*` tables;
* `convMag` — lines 596-602: the freshly computed `v_convergence_mag` array
  read off the `new_*` state;
* `oldMag` — line 605: the stored `old_slabs["v_convergence_mag"].values`;
* `assign` — line 610: writing the `v_convergence_*` columns of the new
  state from the computed magnitudes;
* `seed` — line 556: `old_slabs["v_convergence_mag"] = 0` before the first
  iteration. -/
structure SolverDyn (σ : Type) where
  compute : σ → σ
  convMag : σ → List ℚ
  oldMag : σ → List ℚ
  assign : σ → List ℚ → σ
  seed : σ → σ

/-- The fixed-point loop `for i in range(100)` of `compute_torques`
(`src/platefo.py` lines 551-616), on remaining fuel.  Returns the final
`new_*` state (what lines 619-621 store into `self.plates/points/slabs`),
the number of iterations executed, and whether the loop left through the
`break` on line 607 (true) or by exhausting the range (false).  On the
non-converged branch the `v_convergence_*` columns are assigned into the new
state (line 610) and it becomes the old state of the next iteration
(line 616); on the converged branch the loop stops with the new state as it
stands, without that assignment. -/
def solverLoopGo {σ : Type} (d : SolverDyn σ) : ℕ → σ → σ × ℕ × Bool
  | 0, old => (old, 0, false)
  | fuel + 1, old =>
    let n := d.compute old
    let m := d.convMag n
    if maxAbsDiff m (d.oldMag old) < solverTol then (n, 1, true)
    else
      let r := solverLoopGo d fuel (d.assign n m)
      (r.1, r.2.1 + 1, r.2.2)

/-- A full run of the Force-Balance Solver loop: seed the convergence
magnitude at zero (line 556, executed when `i == 0`), then iterate with the
hard cap `range(100)`. -/
def solverRun {σ : Type} (d : SolverDyn σ) (s : σ) : σ × ℕ × Bool :=
  solverLoopGo d 100 (d.seed s)

/-- The old-state sequence of the loop: `old_*` after `k` non-converged
iterations from old state `s` (each non-converged iteration replaces the
old state by the assigned new state, lines 610-616). -/
def solverOldState {σ : Type} (d : SolverDyn σ) (s : σ) : ℕ → σ
  | 0 => s
  | k + 1 =>
    let prev := solverOldState d s k
    d.assign (d.compute prev) (d.convMag (d.compute prev))

/-- The convergence test of iteration `k` (0-based) of the loop started at
old state `s`: the maximum absolute change of the computed convergence
magnitude against the stored one is below the tolerance
(`src/platefo.py` line 605). -/
def solverConvergedAt {σ : Type} (d : SolverDyn σ) (s : σ) (k : ℕ) : Prop :=
  maxAbsDiff (d.convMag (d.compute (solverOldState d s k)))
    (d.oldMag (solverOldState d s k)) < solverTol

instance {σ : Type} (d : SolverDyn σ) (s : σ) (k : ℕ) :
    Decidable (solverConvergedAt d s k) := by
  unfold solverConvergedAt; infer_instance

/-- The guard around the solver loop (`src/platefo.py` lines 534-536): the
fixed-point iteration runs exactly for cases with "Reconstructed motions"
false and "Mantle drag torque" true. -/
def computeTorquesSolverForCase {σ : Type} (reconstructedMotions mantleDragTorque : Bool)
    (d : SolverDyn σ) (s : σ) : Option (σ × ℕ × Bool) :=
  if !reconstructedMotions && mantleDragTorque then some (solverRun d s) else none

/-- Fuel-generalised loop invariant: the loop executes at most `fuel`
iterations, it breaks early exactly when some iteration within the fuel
passes the convergence test, and if it never breaks it uses all the fuel. -/
theorem solverLoopGo_spec {σ : Type} (d : SolverDyn σ) :
    ∀ (fuel : ℕ) (s : σ),
      (solverLoopGo d fuel s).2.1 ≤ fuel ∧
      ((solverLoopGo d fuel s).2.2 = true ↔ ∃ k < fuel, solverConvergedAt d s k) ∧
      ((solverLoopGo d fuel s).2.2 = false → (solverLoopGo d fuel s).2.1 = fuel) := by
  intro fuel
  induction fuel with
  | zero =>
    intro s
    refine ⟨le_refl 0, ?_, fun _ => rfl⟩
    simp [solverLoopGo]
  | succ f ih =>
    intro s
    by_cases h : maxAbsDiff (d.convMag (d.compute s)) (d.oldMag s) < solverTol
    · have hstep : solverLoopGo d (f + 1) s = (d.compute s, 1, true) := by
        simp [solverLoopGo, h]
      refine ⟨by simp [hstep], ?_, ?_⟩
      · simp only [hstep]
        constructor
        · intro _
          exact ⟨0, Nat.succ_pos f, h⟩
        · intro _; trivial
      · intro hfalse
        rw [hstep] at hfalse
        simp at hfalse
    · have hstep : solverLoopGo d (f + 1) s =
          ((solverLoopGo d f (d.assign (d.compute s) (d.convMag (d.compute s)))).1,
            (solverLoopGo d f (d.assign (d.compute s) (d.convMag (d.compute s)))).2.1 + 1,
            (solverLoopGo d f (d.assign (d.compute s) (d.convMag (d.compute s)))).2.2) := by
        simp [solverLoopGo, h]
      set s' := d.assign (d.compute s) (d.convMag (d.compute s)) with hs'
      have hshift : ∀ k : ℕ, solverOldState d s (k + 1) = solverOldState d s' k := by
        intro k
        induction k with
        | zero => simp [solverOldState, hs']
        | succ j ihj => simp only [solverOldState] at ihj ⊢; rw [ihj]
      have hconvshift : ∀ k : ℕ,
          solverConvergedAt d s (k + 1) ↔ solverConvergedAt d s' k := by
        intro k
        unfold solverConvergedAt
        rw [hshift k]
      obtain ⟨ih1, ih2, ih3⟩ := ih s'
      refine ⟨?_, ?_, ?_⟩
      · rw [hstep]; exact Nat.succ_le_succ ih1
      · rw [hstep]
        simp only
        rw [ih2]
        constructor
        · rintro ⟨k, hk, hc⟩
          exact ⟨k + 1, Nat.succ_lt_succ hk, (hconvshift k).mpr hc⟩
        · rintro ⟨k, hk, hc⟩
          cases k with
          | zero =>
            exact absurd hc h
          | succ j =>
            exact ⟨j, Nat.lt_of_succ_lt_succ hk, (hconvshift j).mp hc⟩
      · rw [hstep]
        intro hfalse
        simp only at hfalse ⊢
        rw [ih3 hfalse]

/-- C3: for every case with "Reconstructed motions" false and "Mantle drag
torque" true, the fixed-point loop in `compute_torques` executes at most 100
iterations, and it terminates before the cap exactly when, at some iteration,
the maximum over all slabs of the absolute change in convergence magnitude
since the previous iterate is below the fixed tolerance `1e-2` (cm/yr);
when that never happens the loop uses all 100 iterations. -/
theorem solver_loop_cap_and_tolerance {σ : Type}
    (reconstructedMotions mantleDragTorque : Bool) (d : SolverDyn σ) (s : σ)
    (hr : reconstructedMotions = false) (hm : mantleDragTorque = true) :
    ∃ r, computeTorquesSolverForCase reconstructedMotions mantleDragTorque d s = some r ∧
      r.2.1 ≤ 100 ∧
      (r.2.2 = true ↔ ∃ k < 100, solverConvergedAt d (d.seed s) k) ∧
      (r.2.2 = false → r.2.1 = 100) := by
  subst hr; subst hm
  refine ⟨solverRun d s, rfl, ?_⟩
  exact solverLoopGo_spec d 100 (d.seed s)

/-- Witness for `solver_loop_cap_and_tolerance`: a concrete one-slab system
whose convergence magnitude is stationary, run under the guard flags. -/
theorem solver_loop_cap_and_tolerance_witness :
    ∃ r, computeTorquesSolverForCase false true
        (SolverDyn.mk id (fun s => [s]) (fun s => [s]) (fun _ m => m.headD 0) id)
        (0 : ℚ) = some r ∧
      r.2.1 ≤ 100 ∧
      (r.2.2 = true ↔ ∃ k < 100,
        solverConvergedAt
          (SolverDyn.mk id (fun s => [s]) (fun s => [s]) (fun _ m => m.headD 0) id)
          ((SolverDyn.mk id (fun s => [s]) (fun s => [s]) (fun _ m => m.headD 0) id).seed
            (0 : ℚ)) k) ∧
      (r.2.2 = false → r.2.1 = 100) :=
  solver_loop_cap_and_tolerance false true
    (SolverDyn.mk id (fun s => [s]) (fun s => [s]) (fun _ m => m.headD 0) id)
    (0 : ℚ) rfl rfl


/-- A concrete instantiation of the solver dynamics that never meets the
tolerance: the state is a single slab's stored convergence magnitude, and
each iteration's computed magnitude exceeds the stored one by 1 (cm/yr),
so `numpy.max(abs(...)) = 1 ≥ 1e-2` at every iteration and the loop always
exhausts `range(100)`. -/
def dynCapped : SolverDyn ℚ :=
  SolverDyn.mk (fun s => s + 1) (fun s => [s]) (fun s => [s])
    (fun _ m => m.headD 0) (fun _ => 0)

/-- A concrete instantiation of the solver dynamics that converges: the
computed magnitude jumps to 100 on the first iteration and is stationary
afterwards, so the test at the second iteration reads
`|100 - 100| = 0 < 1e-2` and the loop breaks. -/
def dynConverging : SolverDyn ℚ :=
  SolverDyn.mk (fun s => if s < 100 then 100 else s) (fun s => [s]) (fun s => [s])
    (fun _ m => m.headD 0) (fun _ => 0)

/-- One unfolding of the solver loop. -/
theorem solverLoopGo_succ {σ : Type} (d : SolverDyn σ) (fuel : ℕ) (old : σ) :
    solverLoopGo d (fuel + 1) old =
      (if maxAbsDiff (d.convMag (d.compute old)) (d.oldMag old) < solverTol then
        (d.compute old, 1, true)
      else
        ((solverLoopGo d fuel (d.assign (d.compute old) (d.convMag (d.compute old)))).1,
          (solverLoopGo d fuel (d.assign (d.compute old) (d.convMag (d.compute old)))).2.1 + 1,
          (solverLoopGo d fuel (d.assign (d.compute old) (d.convMag (d.compute old)))).2.2)) := by
  by_cases h : maxAbsDiff (d.convMag (d.compute old)) (d.oldMag old) < solverTol
  · simp [solverLoopGo, h]
  · simp [solverLoopGo, h]

/-- The never-converging dynamics advance by one each iteration and never
break: after `fuel` iterations from stored magnitude `s` the loop returns
magnitude `s + fuel`, having used all the fuel. -/
theorem solverLoopGo_dynCapped (fuel : ℕ) :
    ∀ s : ℚ, solverLoopGo dynCapped fuel s = (s + fuel, fuel, false) := by
  induction fuel with
  | zero => intro s; simp [solverLoopGo]
  | succ f ih =>
    intro s
    rw [solverLoopGo_succ]
    have hcond : ¬ maxAbsDiff (dynCapped.convMag (dynCapped.compute s))
        (dynCapped.oldMag s) < solverTol := by
      simp only [dynCapped, maxAbsDiff, List.zipWith, List.foldr, solverTol]
      norm_num
    rw [if_neg hcond]
    simp only [dynCapped] at ih ⊢
    rw [ih]
    simp only [List.headD_cons, Prod.mk.injEq, and_true]
    push_cast
    ring

/-- C2 (code behaviour at the failing input): when the Force-Balance Solver
inside `compute_torques` reaches the 100-iteration cap without the tolerance
being met, it does NOT report non-convergence: the loop just falls off
`range(100)` and lines 619-621 store the last iterate with no convergence
flag, so a capped run is silently treated the same as a successful converged
run.  Concretely, the never-converging dynamics `dynCapped` run all 100
iterations without breaking, the converging dynamics `dynConverging` break
after 2 iterations, and the two runs store exactly the same caller-visible
result (the final tables, here the magnitude 100); nothing in the stored
output distinguishes the capped run from the converged one. -/
theorem solver_cap_is_silent :
    solverRun dynCapped 0 = (100, 100, false) ∧
    solverRun dynConverging 0 = (100, 2, true) ∧
    (solverRun dynCapped 0).1 = (solverRun dynConverging 0).1 := by
  have hcap : solverRun dynCapped 0 = (100, 100, false) := by
    show solverLoopGo dynCapped 100 (dynCapped.seed 0) = (100, 100, false)
    rw [show dynCapped.seed 0 = 0 from rfl, solverLoopGo_dynCapped]
    norm_num
  have hstep1 : dynConverging.compute 0 = 100 := by
    norm_num [dynConverging]
  have hconv : solverRun dynConverging 0 = (100, 2, true) := by
    show solverLoopGo dynConverging 100 (dynConverging.seed 0) = (100, 2, true)
    rw [show dynConverging.seed 0 = (0 : ℚ) from rfl]
    rw [show (100 : ℕ) = 99 + 1 from rfl, solverLoopGo_succ]
    have hc1 : ¬ maxAbsDiff (dynConverging.convMag (dynConverging.compute 0))
        (dynConverging.oldMag 0) < solverTol := by
      rw [hstep1]
      simp only [dynConverging, maxAbsDiff, List.zipWith, List.foldr, solverTol]
      norm_num
    rw [if_neg hc1]
    have hassign : dynConverging.assign (dynConverging.compute 0)
        (dynConverging.convMag (dynConverging.compute 0)) = 100 := by
      rw [hstep1]; rfl
    rw [hassign]
    rw [show (99 : ℕ) = 98 + 1 from rfl, solverLoopGo_succ]
    have hstep2 : dynConverging.compute 100 = 100 := by
      simp [dynConverging]
    have hc2 : maxAbsDiff (dynConverging.convMag (dynConverging.compute 100))
        (dynConverging.oldMag 100) < solverTol := by
      rw [hstep2]
      simp only [dynConverging, maxAbsDiff, List.zipWith, List.foldr, solverTol]
      norm_num
    rw [if_pos hc2, hstep2]
  refine ⟨hcap, hconv, ?_⟩
  rw [hcap, hconv]

/-- A Python statement reduced to its name-binding skeleton: `assign ts rs`
is a (possibly multi-target) assignment binding the local names `ts` after
evaluating an expression that reads the bare names `rs`; `expr rs` is a
statement (an expression statement, an `if` condition, or a
subscript/attribute store) that reads the bare names `rs` and binds nothing.
Attribute accesses such as `self.plates` only read the bare name `self`;
dotted calls such as `_numpy.linspace(...)` read the module name `_numpy`. -/
inductive PyStmt where
  | assign : List String → List String → PyStmt
  | expr : List String → PyStmt
  deriving DecidableEq

/-- The first name in `reads` (in evaluation order) that is bound neither as
a function local nor at module scope: Python raises `NameError` on exactly
that name. -/
def firstUnbound (globals env reads : List String) : Option String :=
  reads.find? (fun n => !(env.contains n || globals.contains n))

/-- Run a straight-line sequence of statements over the set of bound local
names, Python-style: the right-hand side is evaluated (raising `NameError`
at the first unbound bare name) before its targets are bound. -/
def runStmts (globals : List String) : List PyStmt → List String → Except String (List String)
  | [], env => .ok env
  | .assign targets reads :: rest, env =>
    match firstUnbound globals env reads with
    | some n => .error n
    | none => runStmts globals rest (targets ++ env)
  | .expr reads :: rest, env =>
    match firstUnbound globals env reads with
    | some n => .error n
    | none => runStmts globals rest env

/-- The names bound at module scope of `src/platefo.py` (lines 10-32: its
imports and the `PlateForces` class), together with the Python builtins the
modelled statements touch.  `sp_const_grid` and `selected_options` are not
among them. -/
def platefoGlobals : List String :=
  ["os", "multiprocessing", "List", "Optional", "itertools", "deepcopy",
   "_numpy", "plt", "gplately", "pygplates", "ccrs", "cmc", "setup",
   "functions_main", "PlateForces", "print", "enumerate", "abs", "range"]

/-- The parameters of `minimise_residual_torque_v2` and of
`minimise_residual_velocity` (identical signatures), bound as locals on
entry. -/
def optimisationParams : List String :=
  ["self", "opt_time", "opt_case", "plates_of_interest", "grid_size",
   "visc_range", "plot", "weight_by_area"]

/-- The name-binding skeleton of `minimise_residual_torque_v2`
(`src/platefo.py` lines 796-833), one entry per executed statement, up to
and including the first statement that reads `sp_const_grid`.  The branch
on the truthiness of `plates_of_interest` (line 812) is the `b` parameter.
Statement-by-statement, with source line numbers:
797 `viscs = ...`; 798 `int_consts = ...`; 799 `slab_consts = ...`;
802 `visc_grid = ...`; 803 `int_const_grid = ...`; 804 `slab_const_grid = ...`;
806 `visc_grid_3d, int_const_grid_3d, slab_const_grid_3d = _numpy.meshgrid(...)`;
807 `ones_grid = ...`; 810-811 `selected_plates/selected_slabs = self...copy()`;
812 `if plates_of_interest:`; 813-816 the filtering assignments (truthy) or
818 `plates_of_interest = selected_plates["plateID"]` (falsy);
821 `total_area = ...`; 824-831 the four `if opt_time not in self...keys():`
initialisations (reading only `opt_time` and `self` whether or not taken);
833 `self.driving_torque[opt_time][opt_case] = _numpy.zeros_like(sp_const_grid)`.
Note the function defines `int_const_grid` and `slab_const_grid` but never
`sp_const_grid` (that name is local only to `minimise_residual_torque`,
line 662). -/
def v2Stmts (b : Bool) : List PyStmt :=
  [.assign ["viscs"] ["_numpy", "visc_range", "grid_size"],
   .assign ["int_consts"] ["_numpy", "grid_size"],
   .assign ["slab_consts"] ["_numpy", "grid_size"],
   .assign ["visc_grid"] ["_numpy", "viscs", "grid_size"],
   .assign ["int_const_grid"] ["_numpy", "int_consts", "grid_size"],
   .assign ["slab_const_grid"] ["_numpy", "slab_consts", "grid_size"],
   .assign ["visc_grid_3d", "int_const_grid_3d", "slab_const_grid_3d"]
     ["_numpy", "visc_grid", "int_const_grid", "slab_const_grid"],
   .assign ["ones_grid"] ["_numpy", "visc_grid"],
   .assign ["selected_plates"] ["self", "opt_time", "opt_case"],
   .assign ["selected_slabs"] ["self", "opt_time", "opt_case"],
   .expr ["plates_of_interest"]] ++
  (if b then
    [.assign ["selected_plates"] ["selected_plates", "plates_of_interest"],
     .assign ["selected_plates"] ["selected_plates"],
     .assign ["selected_slabs"] ["selected_slabs", "plates_of_interest"],
     .assign ["selected_slabs"] ["selected_slabs"]]
   else
    [.assign ["plates_of_interest"] ["selected_plates"]]) ++
  [.assign ["total_area"] ["selected_plates"],
   .expr ["opt_time", "self"], .expr ["self", "opt_time"],
   .expr ["opt_time", "self"], .expr ["self", "opt_time"],
   .expr ["opt_time", "self"], .expr ["self", "opt_time"],
   .expr ["opt_time", "self"], .expr ["self", "opt_time"],
   .expr ["self", "opt_time", "opt_case", "_numpy", "sp_const_grid"]]

/-- C9: every call to `minimise_residual_torque_v2` raises a `NameError`
before producing any result: whichever way the `plates_of_interest` branch
goes, execution reaches line 833, whose right-hand side reads the name
`sp_const_grid`, which is bound neither among the function's locals at that
point (only `int_const_grid` and `slab_const_grid` are defined) nor at
module scope of `src/platefo.py`. -/
theorem v2_raises_NameError_sp_const_grid (b : Bool) :
    runStmts platefoGlobals (v2Stmts b) optimisationParams =
      .error ("sp_const_grid") := by
  cases b <;> rfl

/-- The name-binding skeleton of `minimise_residual_velocity`
(`src/platefo.py` lines 956-977) up to and including the first statement
after the `plates_of_interest` branch.  Statement-by-statement:
957 `viscs = ...`; 958 `sp_consts = ...`; 959-960 the residual arrays;
963-965 `selected_plates/selected_slabs/selected_points = self...copy()`;
966 `if plates_of_interest:`; truthy branch 967-973 (the filtering
assignments and `selected_options = self.options[opt_case].copy()`) or
falsy branch 975 `plates_of_interest = selected_plates["plateID"]`;
977 `selected_options["Reconstructed motions"] = False`, a subscript store
reading the bare name `selected_options`. -/
def mrvStmts (b : Bool) : List PyStmt :=
  [.assign ["viscs"] ["_numpy", "visc_range", "grid_size"],
   .assign ["sp_consts"] ["_numpy", "grid_size"],
   .assign ["v_plate_residual"] ["_numpy", "grid_size"],
   .assign ["v_slab_residual"] ["_numpy", "grid_size"],
   .assign ["selected_plates"] ["self", "opt_time", "opt_case"],
   .assign ["selected_slabs"] ["self", "opt_time", "opt_case"],
   .assign ["selected_points"] ["self", "opt_time", "opt_case"],
   .expr ["plates_of_interest"]] ++
  (if b then
    [.assign ["selected_plates"] ["selected_plates", "plates_of_interest"],
     .assign ["selected_plates"] ["selected_plates"],
     .assign ["selected_slabs"] ["selected_slabs", "plates_of_interest"],
     .assign ["selected_slabs"] ["selected_slabs"],
     .assign ["selected_points"] ["selected_points", "plates_of_interest"],
     .assign ["selected_points"] ["selected_points"],
     .assign ["selected_options"] ["self", "opt_case"]]
   else
    [.assign ["plates_of_interest"] ["selected_plates"]]) ++
  [.expr ["selected_options"]]

/-- C10: calling `minimise_residual_velocity` with `plates_of_interest=None`
(its default, hence the falsy branch of line 966) raises a `NameError` for
every input: `selected_options` is assigned only inside the truthy branch
(line 973), but line 977 reads it unconditionally right after the branch. -/
theorem mrv_default_raises_NameError_selected_options :
    runStmts platefoGlobals (mrvStmts false) optimisationParams =
      .error ("selected_options") := by
  rfl

/-- One row of the plate table as consumed by `minimise_residual_torque`
(`src/platefo.py` lines 659-754): the identifying/weighting columns and the
five Cartesian torque-vector column triples subtracted into the residual. -/
structure PlateRow where
  plateID : ℤ
  area : ℚ
  slab_pull_torque_x : ℚ
  slab_pull_torque_y : ℚ
  slab_pull_torque_z : ℚ
  GPE_torque_x : ℚ
  GPE_torque_y : ℚ
  GPE_torque_z : ℚ
  interface_shear_torque_x : ℚ
  interface_shear_torque_y : ℚ
  interface_shear_torque_z : ℚ
  slab_bend_torque_x : ℚ
  slab_bend_torque_y : ℚ
  slab_bend_torque_z : ℚ
  mantle_drag_torque_x : ℚ
  mantle_drag_torque_y : ℚ
  mantle_drag_torque_z : ℚ
  deriving DecidableEq

/-- The five guards of `minimise_residual_torque`: each field models the
conjunction `self.options[opt_case]["... torque"] and "..._torque_x" in
selected_plates.columns` of lines 707, 713, 725, 731, 737. -/
structure TorqueFlags where
  slabPullTorque : Bool
  gpeTorque : Bool
  interfaceShearTorque : Bool
  slabBendTorque : Bool
  mantleDragTorque : Bool
  deriving DecidableEq

/-- The x-component of the per-plate residual after the driving torques only
(`src/platefo.py` lines 706-716): starts at zero, subtracts the slab-pull
torque scaled by the cell's slab-pull constant (`sp_const_grid`), then the
GPE torque (times `ones_grid`). -/
def residualDrivingX (o : TorqueFlags) (spConst : ℚ) (p : PlateRow) : ℚ :=
  0 - (if o.slabPullTorque then p.slab_pull_torque_x * spConst else 0)
    - (if o.gpeTorque then p.GPE_torque_x else 0)

/-- y-component analogue of `residualDrivingX`. -/
def residualDrivingY (o : TorqueFlags) (spConst : ℚ) (p : PlateRow) : ℚ :=
  0 - (if o.slabPullTorque then p.slab_pull_torque_y * spConst else 0)
    - (if o.gpeTorque then p.GPE_torque_y else 0)

/-- z-component analogue of `residualDrivingX`. -/
def residualDrivingZ (o : TorqueFlags) (spConst : ℚ) (p : PlateRow) : ℚ :=
  0 - (if o.slabPullTorque then p.slab_pull_torque_z * spConst else 0)
    - (if o.gpeTorque then p.GPE_torque_z else 0)

/-- The x-component of the full per-plate residual (`src/platefo.py` lines
724-740): the driving residual minus interface shear, slab bend, and mantle
drag (the latter scaled by the cell's viscosity over the asthenosphere
thickness `self.mech.La`). -/
def residualFullX (o : TorqueFlags) (spConst visc La : ℚ) (p : PlateRow) : ℚ :=
  residualDrivingX o spConst p
    - (if o.interfaceShearTorque then p.interface_shear_torque_x else 0)
    - (if o.slabBendTorque then p.slab_bend_torque_x else 0)
    - (if o.mantleDragTorque then p.mantle_drag_torque_x * visc / La else 0)

/-- y-component analogue of `residualFullX`. -/
def residualFullY (o : TorqueFlags) (spConst visc La : ℚ) (p : PlateRow) : ℚ :=
  residualDrivingY o spConst p
    - (if o.interfaceShearTorque then p.interface_shear_torque_y else 0)
    - (if o.slabBendTorque then p.slab_bend_torque_y else 0)
    - (if o.mantleDragTorque then p.mantle_drag_torque_y * visc / La else 0)

/-- z-component analogue of `residualFullX`. -/
def residualFullZ (o : TorqueFlags) (spConst visc La : ℚ) (p : PlateRow) : ℚ :=
  residualDrivingZ o spConst p
    - (if o.interfaceShearTorque then p.interface_shear_torque_z else 0)
    - (if o.slabBendTorque then p.slab_bend_torque_z else 0)
    - (if o.mantleDragTorque then p.mantle_drag_torque_z * visc / La else 0)

/-- Plate `k`'s contribution to the accumulated driving-torque grid
(`src/platefo.py` lines 718-722): the Euclidean norm of the driving residual
vector, weighted by `area/total_area` when `weight_by_area` else divided by
the plate's area.  `sqrt` is `numpy.sqrt`, kept abstract. -/
def drivingContribution (sqrt : ℚ → ℚ) (o : TorqueFlags) (spConst : ℚ)
    (weightByArea : Bool) (totalArea : ℚ) (p : PlateRow) : ℚ :=
  if weightByArea then
    sqrt (residualDrivingX o spConst p ^ 2 + residualDrivingY o spConst p ^ 2 +
      residualDrivingZ o spConst p ^ 2) * p.area / totalArea
  else
    sqrt (residualDrivingX o spConst p ^ 2 + residualDrivingY o spConst p ^ 2 +
      residualDrivingZ o spConst p ^ 2) / p.area

/-- Plate `k`'s contribution to the accumulated residual-torque grid
(`src/platefo.py` lines 742-746), weighted like `drivingContribution`. -/
def residualContribution (sqrt : ℚ → ℚ) (o : TorqueFlags) (spConst visc La : ℚ)
    (weightByArea : Bool) (totalArea : ℚ) (p : PlateRow) : ℚ :=
  if weightByArea then
    sqrt (residualFullX o spConst visc La p ^ 2 + residualFullY o spConst visc La p ^ 2 +
      residualFullZ o spConst visc La p ^ 2) * p.area / totalArea
  else
    sqrt (residualFullX o spConst visc La p ^ 2 + residualFullY o spConst visc La p ^ 2 +
      residualFullZ o spConst visc La p ^ 2) / p.area

/-- One grid cell of the three accumulated arrays
`self.driving_torque[t][c]`, `self.residual_torque[t][c]`,
`self.residual_torque_normalised[t][c]`. -/
structure TorqueAccum where
  driving : ℚ
  residual : ℚ
  normalised : ℚ
  deriving DecidableEq

/-- The body of the `for k, _ in enumerate(plates_of_interest)` loop of
`minimise_residual_torque` (`src/platefo.py` lines 705-749) at one grid
cell: add the plate's driving contribution (line 720/722), add its residual
contribution (line 744/746), then overwrite the normalised cell with
`log10` of the ratio of the two accumulated values so far (line 749 — the
assignment sits inside the per-plate loop but divides the across-plate
accumulations, not per-plate values).  `log10` is `numpy.log10`, kept
abstract. -/
def torqueLoopStep (sqrt log10 : ℚ → ℚ) (o : TorqueFlags)
    (spConst visc La : ℚ) (weightByArea : Bool) (totalArea : ℚ)
    (st : TorqueAccum) (p : PlateRow) : TorqueAccum :=
  let d := st.driving + drivingContribution sqrt o spConst weightByArea totalArea p
  let r := st.residual +
    residualContribution sqrt o spConst visc La weightByArea totalArea p
  { driving := d, residual := r, normalised := log10 (r / d) }

/-- The plate filtering of `minimise_residual_torque`
(`src/platefo.py` lines 665-676): keep the plates of interest when a list is
given, then keep plates with `area > minimum_plate_area`. -/
def selectedPlatesFor (interest : Option (List ℤ)) (minimumPlateArea : ℚ)
    (plates : List PlateRow) : List PlateRow :=
  let base : List PlateRow :=
    match interest with
    | some ids => plates.filter (fun p => ids.contains p.plateID)
    | none => plates
  base.filter (fun p => minimumPlateArea < p.area)

/-- One grid cell of `minimise_residual_torque` (`src/platefo.py` lines
659-749): filter the plates, total their areas (line 679), zero the three
stored cells (lines 691-692) and run the per-plate accumulation loop.  The
cell is identified by its `sp_const_grid` and `visc_grid` values `spConst`
and `visc`; all cells are covered by quantifying over these. -/
def minimiseResidualTorqueCell (sqrt log10 : ℚ → ℚ) (o : TorqueFlags)
    (spConst visc La : ℚ) (weightByArea : Bool) (interest : Option (List ℤ))
    (minimumPlateArea : ℚ) (plates : List PlateRow) : TorqueAccum :=
  let sel := selectedPlatesFor interest minimumPlateArea plates
  let totalArea := (sel.map (fun p => p.area)).sum
  sel.foldl (torqueLoopStep sqrt log10 o spConst visc La weightByArea totalArea)
    { driving := 0, residual := 0, normalised := 0 }

/-- Accumulation lemma for the per-plate loop: over a nonempty plate list
the fold adds all driving and residual contributions and the normalised
cell ends as `log10` of the quotient of the two full sums. -/
theorem torqueLoop_foldl (sqrt log10 : ℚ → ℚ) (o : TorqueFlags)
    (spConst visc La : ℚ) (weightByArea : Bool) (totalArea : ℚ) :
    ∀ (l : List PlateRow) (d0 r0 n0 : ℚ), l ≠ [] →
      l.foldl (torqueLoopStep sqrt log10 o spConst visc La weightByArea totalArea)
          { driving := d0, residual := r0, normalised := n0 } =
        { driving := d0 +
            (l.map (drivingContribution sqrt o spConst weightByArea totalArea)).sum,
          residual := r0 +
            (l.map (residualContribution sqrt o spConst visc La weightByArea totalArea)).sum,
          normalised := log10
            ((r0 + (l.map (residualContribution sqrt o spConst visc La weightByArea
                totalArea)).sum) /
              (d0 + (l.map (drivingContribution sqrt o spConst weightByArea
                totalArea)).sum)) } := by
  intro l
  induction l with
  | nil => intro d0 r0 n0 h; exact absurd rfl h
  | cons p rest ih =>
    intro d0 r0 n0 _
    rcases List.eq_nil_or_concat rest with hrest | _
    · subst hrest
      simp [torqueLoopStep]
    · have hne : rest ≠ [] := by
        rintro rfl
        rename_i hcat
        obtain ⟨l₂, a, hfalse⟩ := hcat
        exact absurd hfalse.symm (List.concat_ne_nil a l₂)
      rw [List.foldl_cons]
      rw [show torqueLoopStep sqrt log10 o spConst visc La weightByArea totalArea
          { driving := d0, residual := r0, normalised := n0 } p =
          { driving := d0 + drivingContribution sqrt o spConst weightByArea totalArea p,
            residual := r0 +
              residualContribution sqrt o spConst visc La weightByArea totalArea p,
            normalised := log10
              ((r0 + residualContribution sqrt o spConst visc La weightByArea totalArea p) /
                (d0 + drivingContribution sqrt o spConst weightByArea totalArea p)) }
        from rfl]
      rw [ih _ _ _ hne]
      simp only [List.map_cons, List.sum_cons, TorqueAccum.mk.injEq]
      refine ⟨by ring, by ring, ?_⟩
      have h1 : r0 + residualContribution sqrt o spConst visc La weightByArea totalArea p +
          (rest.map (residualContribution sqrt o spConst visc La weightByArea totalArea)).sum =
          r0 + (residualContribution sqrt o spConst visc La weightByArea totalArea p +
            (rest.map (residualContribution sqrt o spConst visc La weightByArea totalArea)).sum) := by
        ring
      have h2 : d0 + drivingContribution sqrt o spConst weightByArea totalArea p +
          (rest.map (drivingContribution sqrt o spConst weightByArea totalArea)).sum =
          d0 + (drivingContribution sqrt o spConst weightByArea totalArea p +
            (rest.map (drivingContribution sqrt o spConst weightByArea totalArea)).sum) := by
        ring
      rw [h1, h2]

/-- C1: after `minimise_residual_torque` finishes, for every grid cell the
stored `residual_torque_normalised[opt_time][opt_case]` equals
`log10 (R / D)`, where `R` is the residual-torque magnitude norm accumulated
across ALL selected plates (area-weighted by `area/total_area` when
`weight_by_area`) and `D` is the equivalently accumulated driving-torque
norm; the normalisation is applied once over the across-plates sums, not
per plate — in particular the final value does not retain only the last
plate's ratio.  The grid cell is identified by its `(spConst, visc)` values;
the claim holds for every cell since these are universally quantified. -/
theorem residual_torque_normalised_is_ratio_of_sums
    (sqrt log10 : ℚ → ℚ) (o : TorqueFlags) (spConst visc La : ℚ)
    (weightByArea : Bool) (interest : Option (List ℤ)) (minimumPlateArea : ℚ)
    (plates : List PlateRow)
    (h : selectedPlatesFor interest minimumPlateArea plates ≠ []) :
    (minimiseResidualTorqueCell sqrt log10 o spConst visc La weightByArea interest
        minimumPlateArea plates).normalised =
      log10
        (((selectedPlatesFor interest minimumPlateArea plates).map
            (residualContribution sqrt o spConst visc La weightByArea
              (((selectedPlatesFor interest minimumPlateArea plates).map
                (fun p => p.area)).sum))).sum /
          ((selectedPlatesFor interest minimumPlateArea plates).map
            (drivingContribution sqrt o spConst weightByArea
              (((selectedPlatesFor interest minimumPlateArea plates).map
                (fun p => p.area)).sum))).sum) ∧
    (minimiseResidualTorqueCell sqrt log10 o spConst visc La weightByArea interest
        minimumPlateArea plates).residual =
      ((selectedPlatesFor interest minimumPlateArea plates).map
        (residualContribution sqrt o spConst visc La weightByArea
          (((selectedPlatesFor interest minimumPlateArea plates).map
            (fun p => p.area)).sum))).sum ∧
    (minimiseResidualTorqueCell sqrt log10 o spConst visc La weightByArea interest
        minimumPlateArea plates).driving =
      ((selectedPlatesFor interest minimumPlateArea plates).map
        (drivingContribution sqrt o spConst weightByArea
          (((selectedPlatesFor interest minimumPlateArea plates).map
            (fun p => p.area)).sum))).sum := by
  unfold minimiseResidualTorqueCell
  rw [torqueLoop_foldl sqrt log10 o spConst visc La weightByArea _ _ 0 0 0 h]
  refine ⟨by simp, by simp, by simp⟩

/-- A one-plate table used to exercise `minimise_residual_torque` on a
concrete input. -/
def c1PlateRow : PlateRow :=
  { plateID := 101, area := 1,
    slab_pull_torque_x := 0, slab_pull_torque_y := 0, slab_pull_torque_z := 0,
    GPE_torque_x := 0, GPE_torque_y := 0, GPE_torque_z := 0,
    interface_shear_torque_x := 0, interface_shear_torque_y := 0,
    interface_shear_torque_z := 0,
    slab_bend_torque_x := 0, slab_bend_torque_y := 0, slab_bend_torque_z := 0,
    mantle_drag_torque_x := 0, mantle_drag_torque_y := 0, mantle_drag_torque_z := 0 }

/-- Witness for `residual_torque_normalised_is_ratio_of_sums` at a concrete
one-plate input with all torques enabled. -/
theorem residual_torque_normalised_is_ratio_of_sums_witness :
    selectedPlatesFor none 0 [c1PlateRow] ≠ [] ∧
    (minimiseResidualTorqueCell id id
        { slabPullTorque := true, gpeTorque := true, interfaceShearTorque := true,
          slabBendTorque := true, mantleDragTorque := true }
        1 1 1 true none 0 [c1PlateRow]).normalised =
      id
        (((selectedPlatesFor none 0 [c1PlateRow]).map
            (residualContribution id
              { slabPullTorque := true, gpeTorque := true, interfaceShearTorque := true,
                slabBendTorque := true, mantleDragTorque := true }
              1 1 1 true
              (((selectedPlatesFor none 0 [c1PlateRow]).map
                (fun p => p.area)).sum))).sum /
          ((selectedPlatesFor none 0 [c1PlateRow]).map
            (drivingContribution id
              { slabPullTorque := true, gpeTorque := true, interfaceShearTorque := true,
                slabBendTorque := true, mantleDragTorque := true }
              1 true
              (((selectedPlatesFor none 0 [c1PlateRow]).map
                (fun p => p.area)).sum))).sum) :=
  ⟨by decide,
    (residual_torque_normalised_is_ratio_of_sums id id
      { slabPullTorque := true, gpeTorque := true, interfaceShearTorque := true,
        slabBendTorque := true, mantleDragTorque := true }
      1 1 1 true none 0 [c1PlateRow] (by decide)).1⟩

/-- A numpy 2-D float array as it sits in memory: a flat row-major buffer
together with the number of columns (`residual_torque_normalised` has shape
`(grid_size, grid_size)` with `sp_const` along rows and viscosity along
columns, `src/platefo.py` lines 659-663). -/
structure NumpyGrid where
  data : List ℚ
  cols : ℕ
  deriving DecidableEq

/-- Entry at row `i`, column `j` of a row-major grid. -/
def NumpyGrid.entry (g : NumpyGrid) (i j : ℕ) : ℚ :=
  g.data.getD (i * g.cols + j) 0

/-- `numpy.argmin` on a 1-D buffer: the index of the minimum value; per the
numpy contract, in case of multiple occurrences of the minimum value the
index of the FIRST occurrence is returned.  (`numpy.argmin` of a 2-D array,
as called on line 752, operates on the flattened row-major buffer.) -/
def numpyArgmin : List ℚ → ℕ
  | [] => 0
  | [_] => 0
  | x :: y :: rest =>
    if x ≤ (y :: rest).getD (numpyArgmin (y :: rest)) 0 then 0
    else numpyArgmin (y :: rest) + 1

/-- `numpy.unravel_index` for a 2-D row-major shape: flat index to
`(row, column)`. -/
def unravelIndex (idx cols : ℕ) : ℕ × ℕ := (idx / cols, idx % cols)

/-- The optimum selection of `minimise_residual_torque`
(`src/platefo.py` lines 751-754):

  opt_i, opt_j = numpy.unravel_index(numpy.argmin(grid), grid.shape)
  opt_visc = visc_grid[opt_i, opt_j]
  opt_sp_const = sp_const_grid[opt_i, opt_j]

returning `((opt_i, opt_j), opt_visc, opt_sp_const)`; `viscGrid` and
`spConstGrid` are the two meshgrid coordinate arrays, indexed by
`(row, column)`. -/
def selectOptimum (g : NumpyGrid) (viscGrid spConstGrid : ℕ → ℕ → ℚ) :
    (ℕ × ℕ) × ℚ × ℚ :=
  let idx := unravelIndex (numpyArgmin g.data) g.cols
  (idx, viscGrid idx.1 idx.2, spConstGrid idx.1 idx.2)

/-- Unfolding equation of `numpyArgmin` on a two-or-more element buffer. -/
theorem numpyArgmin_cons_cons (x y : ℚ) (t : List ℚ) :
    numpyArgmin (x :: y :: t) =
      if x ≤ (y :: t).getD (numpyArgmin (y :: t)) 0 then 0
      else numpyArgmin (y :: t) + 1 := rfl

/-- `numpyArgmin` stays within bounds on a nonempty buffer. -/
theorem numpyArgmin_lt_length : ∀ (l : List ℚ), l ≠ [] → numpyArgmin l < l.length := by
  intro l
  induction l with
  | nil => intro h; exact absurd rfl h
  | cons x rest ih =>
    intro _
    cases rest with
    | nil => simp [numpyArgmin]
    | cons y t =>
      rw [numpyArgmin_cons_cons]
      by_cases hle : x ≤ (y :: t).getD (numpyArgmin (y :: t)) 0
      · rw [if_pos hle]
        simp
      · rw [if_neg hle]
        have := ih (List.cons_ne_nil y t)
        simpa using Nat.succ_lt_succ this

/-- The value at `numpyArgmin` is a minimum of the buffer. -/
theorem numpyArgmin_le : ∀ (l : List ℚ) (k : ℕ), k < l.length →
    l.getD (numpyArgmin l) 0 ≤ l.getD k 0 := by
  intro l
  induction l with
  | nil => intro k hk; simp at hk
  | cons x rest ih =>
    intro k hk
    cases rest with
    | nil =>
      cases k with
      | zero => exact le_refl _
      | succ k' => simp at hk
    | cons y t =>
      rw [numpyArgmin_cons_cons]
      by_cases hle : x ≤ (y :: t).getD (numpyArgmin (y :: t)) 0
      · rw [if_pos hle]
        cases k with
        | zero => exact le_refl _
        | succ k' =>
          have hk' : k' < (y :: t).length := Nat.lt_of_succ_lt_succ hk
          rw [List.getD_cons_zero, List.getD_cons_succ]
          exact hle.trans (ih k' hk')
      · rw [if_neg hle]
        cases k with
        | zero =>
          rw [List.getD_cons_succ, List.getD_cons_zero]
          exact (not_le.mp hle).le
        | succ k' =>
          have hk' : k' < (y :: t).length := Nat.lt_of_succ_lt_succ hk
          rw [List.getD_cons_succ, List.getD_cons_succ]
          exact ih k' hk'

/-- Every entry strictly before `numpyArgmin` is strictly larger: the argmin
is the first occurrence of the minimum. -/
theorem numpyArgmin_first : ∀ (l : List ℚ) (k : ℕ), k < numpyArgmin l →
    l.getD (numpyArgmin l) 0 < l.getD k 0 := by
  intro l
  induction l with
  | nil => intro k hk; simp [numpyArgmin] at hk
  | cons x rest ih =>
    intro k hk
    cases rest with
    | nil => simp [numpyArgmin] at hk
    | cons y t =>
      rw [numpyArgmin_cons_cons] at hk ⊢
      by_cases hle : x ≤ (y :: t).getD (numpyArgmin (y :: t)) 0
      · rw [if_pos hle] at hk
        simp at hk
      · rw [if_neg hle] at hk ⊢
        cases k with
        | zero =>
          rw [List.getD_cons_succ, List.getD_cons_zero]
          exact not_le.mp hle
        | succ k' =>
          have hk' : k' < numpyArgmin (y :: t) := Nat.lt_of_succ_lt_succ hk
          rw [List.getD_cons_succ, List.getD_cons_succ]
          exact ih k' hk'

/-- C5: `minimise_residual_torque` selects the calibrated pair by argmin
over the normalised residual-torque grid: the returned
`(opt_visc, opt_sp_const)` are `visc_grid` and `sp_const_grid` evaluated at
the indices `(opt_i, opt_j)` of the minimum value of
`residual_torque_normalised`, the selected cell's value is a minimum over
the whole grid, and when several grid cells share the minimum value the
first occurrence in row-major (flattened) order is chosen: every other cell
attaining the value sits at a flat index no smaller than the selected one. -/
theorem select_optimum_is_first_rowmajor_argmin
    (g : NumpyGrid) (viscGrid spConstGrid : ℕ → ℕ → ℚ) (rows : ℕ)
    (hc : 0 < g.cols) (hr : 0 < rows) (hl : g.data.length = rows * g.cols) :
    selectOptimum g viscGrid spConstGrid =
      ((numpyArgmin g.data / g.cols, numpyArgmin g.data % g.cols),
        viscGrid (numpyArgmin g.data / g.cols) (numpyArgmin g.data % g.cols),
        spConstGrid (numpyArgmin g.data / g.cols) (numpyArgmin g.data % g.cols)) ∧
    (numpyArgmin g.data / g.cols < rows ∧ numpyArgmin g.data % g.cols < g.cols) ∧
    (∀ i' j', i' < rows → j' < g.cols →
      g.entry (numpyArgmin g.data / g.cols) (numpyArgmin g.data % g.cols) ≤
        g.entry i' j') ∧
    (∀ i' j', i' < rows → j' < g.cols →
      g.entry i' j' =
          g.entry (numpyArgmin g.data / g.cols) (numpyArgmin g.data % g.cols) →
      numpyArgmin g.data ≤ i' * g.cols + j') := by
  have hne : g.data ≠ [] := by
    intro hnil
    rw [hnil] at hl
    simp only [List.length_nil] at hl
    have hpos : 0 < rows * g.cols := Nat.mul_pos hr hc
    omega
  have ha : numpyArgmin g.data < g.data.length := numpyArgmin_lt_length g.data hne
  have hmod : numpyArgmin g.data / g.cols * g.cols + numpyArgmin g.data % g.cols =
      numpyArgmin g.data := by
    rw [Nat.mul_comm]
    exact Nat.div_add_mod (numpyArgmin g.data) g.cols
  have hsel : g.entry (numpyArgmin g.data / g.cols) (numpyArgmin g.data % g.cols) =
      g.data.getD (numpyArgmin g.data) 0 := by
    unfold NumpyGrid.entry
    rw [hmod]
  have hbound : ∀ i' j', i' < rows → j' < g.cols → i' * g.cols + j' < g.data.length := by
    intro i' j' hi' hj'
    rw [hl]
    calc i' * g.cols + j' < i' * g.cols + g.cols := Nat.add_lt_add_left hj' _
      _ = (i' + 1) * g.cols := by ring
      _ ≤ rows * g.cols := Nat.mul_le_mul_right g.cols (Nat.succ_le_of_lt hi')
  refine ⟨rfl, ⟨?_, Nat.mod_lt _ hc⟩, ?_, ?_⟩
  · rw [Nat.div_lt_iff_lt_mul hc]
    rw [hl] at ha
    exact ha
  · intro i' j' hi' hj'
    rw [hsel]
    unfold NumpyGrid.entry
    exact numpyArgmin_le g.data (i' * g.cols + j') (hbound i' j' hi' hj')
  · intro i' j' hi' hj' heq
    by_contra hlt
    push_neg at hlt
    have := numpyArgmin_first g.data (i' * g.cols + j') hlt
    rw [hsel] at heq
    unfold NumpyGrid.entry at heq
    rw [heq] at this
    exact lt_irrefl _ this

/-- Witness for `select_optimum_is_first_rowmajor_argmin` on a concrete 2x2
grid whose minimum value 1 occurs twice (flat indices 1 and 3). -/
theorem select_optimum_is_first_rowmajor_argmin_witness :
    (0 : ℕ) < 2 ∧ (0 : ℕ) < 2 ∧
      (NumpyGrid.mk [3, 1, 2, 1] 2).data.length = 2 * (NumpyGrid.mk [3, 1, 2, 1] 2).cols ∧
    (selectOptimum (NumpyGrid.mk [3, 1, 2, 1] 2) (fun i j => i + j) (fun i j => i * j) =
        ((numpyArgmin (NumpyGrid.mk [3, 1, 2, 1] 2).data / 2,
          numpyArgmin (NumpyGrid.mk [3, 1, 2, 1] 2).data % 2),
          (fun i j : ℕ => (i : ℚ) + j) (numpyArgmin (NumpyGrid.mk [3, 1, 2, 1] 2).data / 2)
            (numpyArgmin (NumpyGrid.mk [3, 1, 2, 1] 2).data % 2),
          (fun i j : ℕ => (i : ℚ) * j) (numpyArgmin (NumpyGrid.mk [3, 1, 2, 1] 2).data / 2)
            (numpyArgmin (NumpyGrid.mk [3, 1, 2, 1] 2).data % 2)) ∧
      (numpyArgmin (NumpyGrid.mk [3, 1, 2, 1] 2).data / 2 < 2 ∧
        numpyArgmin (NumpyGrid.mk [3, 1, 2, 1] 2).data % 2 < 2) ∧
      (∀ i' j', i' < 2 → j' < 2 →
        (NumpyGrid.mk [3, 1, 2, 1] 2).entry
            (numpyArgmin (NumpyGrid.mk [3, 1, 2, 1] 2).data / 2)
            (numpyArgmin (NumpyGrid.mk [3, 1, 2, 1] 2).data % 2) ≤
          (NumpyGrid.mk [3, 1, 2, 1] 2).entry i' j') ∧
      (∀ i' j', i' < 2 → j' < 2 →
        (NumpyGrid.mk [3, 1, 2, 1] 2).entry i' j' =
            (NumpyGrid.mk [3, 1, 2, 1] 2).entry
              (numpyArgmin (NumpyGrid.mk [3, 1, 2, 1] 2).data / 2)
              (numpyArgmin (NumpyGrid.mk [3, 1, 2, 1] 2).data % 2) →
        numpyArgmin (NumpyGrid.mk [3, 1, 2, 1] 2).data ≤ i' * 2 + j')) :=
  ⟨by decide, by decide, by decide,
    select_optimum_is_first_rowmajor_argmin (NumpyGrid.mk [3, 1, 2, 1] 2)
      (fun i j => (i : ℚ) + j) (fun i j => (i : ℚ) * j) 2
      (by decide) (by decide) (by decide)⟩

/-- One topological fragment row of the raw plate array built by `get_plates`
(`src/setup.py` lines 65-105): the ten columns assigned on lines 71-99 /
named on line 105. -/
structure PlateFragment where
  plateID : ℤ
  area : ℚ
  pole_lat : ℚ
  pole_lon : ℚ
  pole_angle : ℚ
  centroid_lon : ℚ
  centroid_lat : ℚ
  centroid_v_lon : ℚ
  centroid_v_lat : ℚ
  centroid_v_mag : ℚ
  deriving DecidableEq

/-- The distinct plateIDs in ascending order: `plates.groupby("plateID")`
iterates groups by sorted key, and lines 120-121 sort the merged table by
`plateID` (insertion sort is used here; since the deduplicated keys are
distinct, the sorted permutation is unique, so the choice of algorithm is
immaterial). -/
def distinctSortedIDs (frags : List PlateFragment) : List ℤ :=
  List.insertionSort (· ≤ ·) (frags.map (fun f => f.plateID)).dedup

/-- The group of fragments sharing a plateID, in original row order
(pandas `groupby` preserves the order of rows within each group). -/
def groupOf (frags : List PlateFragment) (id : ℤ) : List PlateFragment :=
  frags.filter (fun f => decide (f.plateID = id))

/-- `DataFrame.idxmax` over a group's `area` column
(`src/setup.py` line 108): the row holding the maximum area; on ties pandas
returns the first occurrence, so a later row replaces the current best only
when strictly larger. -/
def firstMaxArea : List PlateFragment → Option PlateFragment
  | [] => none
  | [f] => some f
  | f :: g :: rest =>
    match firstMaxArea (g :: rest) with
    | none => some f
    | some m => some (if m.area > f.area then m else f)

/-- `get_plates` merging (`src/setup.py` lines 107-121): per distinct
plateID (sorted), take every column from the largest-area fragment
(`plates.loc[main_plates_indices]`, line 111) and overwrite the `area`
column with the group's summed area (line 114).  The zero-initialised
torque/force columns added on lines 123-131 carry no information and are
omitted. -/
def getPlates (frags : List PlateFragment) : List PlateFragment :=
  (distinctSortedIDs frags).filterMap (fun id =>
    (firstMaxArea (groupOf frags id)).map (fun main =>
      { main with area := ((groupOf frags id).map (fun f => f.area)).sum }))

/-- Unfolding equation of `firstMaxArea` on two or more fragments. -/
theorem firstMaxArea_cons_cons (f g : PlateFragment) (rest : List PlateFragment) :
    firstMaxArea (f :: g :: rest) =
      match firstMaxArea (g :: rest) with
      | none => some f
      | some m => some (if m.area > f.area then m else f) := rfl

/-- A nonempty group always has a maximal row. -/
theorem firstMaxArea_isSome : ∀ (l : List PlateFragment), l ≠ [] →
    ∃ m, firstMaxArea l = some m := by
  intro l
  induction l with
  | nil => intro h; exact absurd rfl h
  | cons f rest ih =>
    intro _
    cases rest with
    | nil => exact ⟨f, rfl⟩
    | cons g t =>
      obtain ⟨m, hm⟩ := ih (List.cons_ne_nil g t)
      rw [firstMaxArea_cons_cons, hm]
      exact ⟨if m.area > f.area then m else f, rfl⟩

/-- The maximal row belongs to its group. -/
theorem firstMaxArea_mem : ∀ (l : List PlateFragment) (m : PlateFragment),
    firstMaxArea l = some m → m ∈ l := by
  intro l
  induction l with
  | nil => intro m hm; simp [firstMaxArea] at hm
  | cons f rest ih =>
    intro m hm
    cases rest with
    | nil =>
      simp only [firstMaxArea, Option.some.injEq] at hm
      rw [← hm]
      exact List.mem_singleton_self f
    | cons g t =>
      rw [firstMaxArea_cons_cons] at hm
      cases hrec : firstMaxArea (g :: t) with
      | none =>
        obtain ⟨m', hm'⟩ := firstMaxArea_isSome (g :: t) (List.cons_ne_nil g t)
        rw [hrec] at hm'
        exact absurd hm' (by simp)
      | some m' =>
        rw [hrec] at hm
        simp only [Option.some.injEq] at hm
        by_cases hgt : m'.area > f.area
        · rw [if_pos hgt] at hm
          rw [← hm]
          exact List.mem_cons_of_mem f (ih m' hrec)
        · rw [if_neg hgt] at hm
          rw [← hm]
          exact List.mem_cons_self f (g :: t)

/-- The maximal row's area bounds every area in its group. -/
theorem firstMaxArea_max : ∀ (l : List PlateFragment) (m : PlateFragment),
    firstMaxArea l = some m → ∀ g ∈ l, g.area ≤ m.area := by
  intro l
  induction l with
  | nil => intro m hm; simp [firstMaxArea] at hm
  | cons f rest ih =>
    intro m hm g hg
    cases rest with
    | nil =>
      simp only [firstMaxArea, Option.some.injEq] at hm
      rcases List.mem_singleton.mp hg with rfl
      rw [hm]
    | cons y t =>
      rw [firstMaxArea_cons_cons] at hm
      cases hrec : firstMaxArea (y :: t) with
      | none =>
        obtain ⟨m', hm'⟩ := firstMaxArea_isSome (y :: t) (List.cons_ne_nil y t)
        rw [hrec] at hm'
        exact absurd hm' (by simp)
      | some m' =>
        rw [hrec] at hm
        simp only [Option.some.injEq] at hm
        rcases List.mem_cons.mp hg with heq | hg'
        · by_cases hgt : m'.area > f.area
          · rw [if_pos hgt] at hm
            rw [heq, ← hm]
            exact hgt.le
          · rw [if_neg hgt] at hm
            rw [heq, ← hm]
        · have hle : g.area ≤ m'.area := ih m' hrec g hg'
          by_cases hgt : m'.area > f.area
          · rw [if_pos hgt] at hm
            rw [← hm]
            exact hle
          · rw [if_neg hgt] at hm
            rw [← hm]
            exact hle.trans (not_lt.mp hgt)

/-- Membership in a plateID group. -/
theorem mem_groupOf (frags : List PlateFragment) (id : ℤ) (f : PlateFragment) :
    f ∈ groupOf frags id ↔ f ∈ frags ∧ f.plateID = id := by
  simp [groupOf, List.mem_filter]

/-- The sorted distinct IDs are exactly the IDs occurring among the
fragments. -/
theorem mem_distinctSortedIDs (frags : List PlateFragment) (id : ℤ) :
    id ∈ distinctSortedIDs frags ↔ id ∈ frags.map (fun f => f.plateID) := by
  unfold distinctSortedIDs
  rw [(List.perm_insertionSort (· ≤ ·) _).mem_iff, List.mem_dedup]

/-- The sorted distinct IDs carry no duplicates. -/
theorem distinctSortedIDs_nodup (frags : List PlateFragment) :
    (distinctSortedIDs frags).Nodup := by
  unfold distinctSortedIDs
  exact (List.perm_insertionSort (· ≤ ·) _).nodup_iff.mpr
    (List.nodup_dedup _)

/-- Case analysis of the merged-row builder inside `getPlates`. -/
theorem getPlates_row_eq (frags : List PlateFragment) (id : ℤ) (row : PlateFragment)
    (h : (firstMaxArea (groupOf frags id)).map (fun main =>
        { main with area := ((groupOf frags id).map (fun f => f.area)).sum }) =
      some row) :
    ∃ main, firstMaxArea (groupOf frags id) = some main ∧
      row = { main with area := ((groupOf frags id).map (fun f => f.area)).sum } := by
  cases hfm : firstMaxArea (groupOf frags id) with
  | none => rw [hfm] at h; simp at h
  | some main =>
    rw [hfm] at h
    simp only [Option.map_some', Option.some.injEq] at h
    exact ⟨main, rfl, h.symm⟩

/-- Over IDs whose groups are nonempty, `getPlates`'s `filterMap` yields one
row per ID, carrying exactly that plateID. -/
theorem map_plateID_filterMap (frags : List PlateFragment) :
    ∀ (ids : List ℤ), (∀ id ∈ ids, groupOf frags id ≠ []) →
      ((ids.filterMap (fun id =>
        (firstMaxArea (groupOf frags id)).map (fun main =>
          { main with
            area := ((groupOf frags id).map (fun f : PlateFragment => f.area)).sum }))).map
        (fun r => r.plateID)) = ids := by
  intro ids
  induction ids with
  | nil => intro _; rfl
  | cons id rest ih =>
    intro hne
    obtain ⟨main, hmain⟩ :=
      firstMaxArea_isSome (groupOf frags id) (hne id (List.mem_cons_self id rest))
    have hmainid : main.plateID = id :=
      ((mem_groupOf frags id main).mp (firstMaxArea_mem _ main hmain)).2
    rw [List.filterMap_cons]
    rw [hmain]
    simp only [Option.map_some']
    rw [List.map_cons]
    rw [ih (fun i hi => hne i (List.mem_cons_of_mem id hi))]
    simp [hmainid]

/-- C6: for every (time, case), the plate table produced by `get_plates`
contains exactly one row per distinct plateID (its plateID column equals the
sorted distinct fragment IDs, without duplicates and covering exactly the
IDs present among the input fragments); each row's geometric/kinematic
attributes (stage-rotation pole, centroid position, centroid velocity) come
from a fragment with that plateID whose area is maximal among all fragments
sharing the plateID, while the row's area column equals the sum of the
areas of all such fragments. -/
theorem get_plates_merges_by_max_area (frags : List PlateFragment) :
    ((getPlates frags).map (fun r => r.plateID)) = distinctSortedIDs frags ∧
    ((getPlates frags).map (fun r => r.plateID)).Nodup ∧
    (∀ id : ℤ, id ∈ (getPlates frags).map (fun r => r.plateID) ↔
      id ∈ frags.map (fun f => f.plateID)) ∧
    (∀ row ∈ getPlates frags, ∃ main ∈ frags,
      main.plateID = row.plateID ∧
      (∀ g ∈ frags, g.plateID = row.plateID → g.area ≤ main.area) ∧
      row.pole_lat = main.pole_lat ∧ row.pole_lon = main.pole_lon ∧
      row.pole_angle = main.pole_angle ∧ row.centroid_lon = main.centroid_lon ∧
      row.centroid_lat = main.centroid_lat ∧
      row.centroid_v_lon = main.centroid_v_lon ∧
      row.centroid_v_lat = main.centroid_v_lat ∧
      row.centroid_v_mag = main.centroid_v_mag ∧
      row.area = ((frags.filter (fun f => decide (f.plateID = row.plateID))).map
        (fun f => f.area)).sum) := by
  have hgroups : ∀ id ∈ distinctSortedIDs frags, groupOf frags id ≠ [] := by
    intro id hid
    obtain ⟨f, hf, hfid⟩ := List.mem_map.mp ((mem_distinctSortedIDs frags id).mp hid)
    exact List.ne_nil_of_mem ((mem_groupOf frags id f).mpr ⟨hf, hfid⟩)
  have hmap : ((getPlates frags).map (fun r => r.plateID)) = distinctSortedIDs frags :=
    map_plateID_filterMap frags (distinctSortedIDs frags) hgroups
  refine ⟨hmap, ?_, ?_, ?_⟩
  · rw [hmap]; exact distinctSortedIDs_nodup frags
  · intro id
    rw [hmap]
    exact mem_distinctSortedIDs frags id
  · intro row hrow
    obtain ⟨id, hid, hfunc⟩ := List.mem_filterMap.mp hrow
    obtain ⟨main, hfm, hroweq⟩ := getPlates_row_eq frags id row hfunc
    have hmem := (mem_groupOf frags id main).mp (firstMaxArea_mem _ main hfm)
    have hrowid : row.plateID = id := by rw [hroweq]; exact hmem.2
    refine ⟨main, hmem.1, ?_, ?_, ?_⟩
    · rw [hrowid]; exact hmem.2
    · intro g hg hgid
      exact firstMaxArea_max _ main hfm g
        ((mem_groupOf frags id g).mpr ⟨hg, by rw [hgid, hrowid]⟩)
    · rw [hroweq]
      refine ⟨rfl, rfl, rfl, rfl, rfl, rfl, rfl, rfl, ?_⟩
      show ((groupOf frags id).map (fun f => f.area)).sum =
        ((frags.filter (fun f => decide (f.plateID = main.plateID))).map
          (fun f => f.area)).sum
      rw [hmem.2]
      rfl

/-- A fragment with plateID 5 and the larger area. -/
def c6FragA : PlateFragment :=
  { plateID := 5, area := 2, pole_lat := 10, pole_lon := 20, pole_angle := 30,
    centroid_lon := 40, centroid_lat := 50, centroid_v_lon := 60,
    centroid_v_lat := 70, centroid_v_mag := 80 }

/-- A second fragment with the same plateID 5 and the smaller area. -/
def c6FragB : PlateFragment :=
  { plateID := 5, area := 1, pole_lat := 11, pole_lon := 21, pole_angle := 31,
    centroid_lon := 41, centroid_lat := 51, centroid_v_lon := 61,
    centroid_v_lat := 71, centroid_v_mag := 81 }

/-- The merged row `get_plates` produces from the two fragments: attributes
of the larger fragment, areas summed. -/
def c6MergedRow : PlateFragment :=
  { plateID := 5, area := 3, pole_lat := 10, pole_lon := 20, pole_angle := 30,
    centroid_lon := 40, centroid_lat := 50, centroid_v_lon := 60,
    centroid_v_lat := 70, centroid_v_mag := 80 }

/-- The two-fragment table merges into exactly the expected single row. -/
theorem getPlates_c6_example : getPlates [c6FragA, c6FragB] = [c6MergedRow] := by
  norm_num [getPlates, distinctSortedIDs, groupOf, firstMaxArea,
    List.insertionSort, List.orderedInsert, c6FragA, c6FragB, c6MergedRow,
    List.dedup_cons_of_mem, List.dedup_cons_of_not_mem,
    List.filterMap_cons, List.filter_cons, Option.map_some',
    List.sum_cons, List.sum_nil]

/-- Witness for `get_plates_merges_by_max_area` at the two-fragment table. -/
theorem get_plates_merges_by_max_area_witness :
    c6MergedRow ∈ getPlates [c6FragA, c6FragB] ∧
    ∃ main ∈ [c6FragA, c6FragB],
      main.plateID = c6MergedRow.plateID ∧
      (∀ g ∈ [c6FragA, c6FragB], g.plateID = c6MergedRow.plateID →
        g.area ≤ main.area) ∧
      c6MergedRow.pole_lat = main.pole_lat ∧ c6MergedRow.pole_lon = main.pole_lon ∧
      c6MergedRow.pole_angle = main.pole_angle ∧
      c6MergedRow.centroid_lon = main.centroid_lon ∧
      c6MergedRow.centroid_lat = main.centroid_lat ∧
      c6MergedRow.centroid_v_lon = main.centroid_v_lon ∧
      c6MergedRow.centroid_v_lat = main.centroid_v_lat ∧
      c6MergedRow.centroid_v_mag = main.centroid_v_mag ∧
      c6MergedRow.area = (([c6FragA, c6FragB].filter
        (fun f => decide (f.plateID = c6MergedRow.plateID))).map
          (fun f => f.area)).sum :=
  ⟨by rw [getPlates_c6_example]; exact List.mem_singleton_self c6MergedRow,
    (get_plates_merges_by_max_area [c6FragA, c6FragB]).2.2.2 c6MergedRow
      (by rw [getPlates_c6_example]; exact List.mem_singleton_self c6MergedRow)⟩

/-- Two cases agree on every target option (the Prop read off
`all(options[case][opt] == options[other_case][opt] for opt in target_options)`,
`src/setup.py` line 718). -/
def optionsEqOn {C O V : Type} (options : C → O → V) (targets : List O)
    (a b : C) : Prop :=
  ∀ t ∈ targets, options a t = options b t

/-- The Bool actually computed by `src/setup.py` line 718. -/
def optionsAgreeB {C O V : Type} [DecidableEq V] (options : C → O → V)
    (targets : List O) (a b : C) : Bool :=
  targets.all (fun t => decide (options a t = options b t))

/-- The class list built for a fresh key `c` by `src/setup.py` lines
706-719: `case_dict[case] = [case]`, then every `other_case` in the full
case list (in order) with `other_case != case` that agrees on all target
options is appended. -/
def similarCases {C O V : Type} [DecidableEq C] [DecidableEq V]
    (options : C → O → V) (targets : List O) (allCases : List C) (c : C) :
    List C :=
  c :: allCases.filter (fun o => decide (¬ o = c) && optionsAgreeB options targets c o)

/-- The outer loop of `process_cases` (`src/setup.py` lines 695-722): walk
the case list; a case already in `processed_cases` is skipped; otherwise it
becomes a key whose class is `similarCases`, and the key and all members
join `processed_cases`. -/
def processCasesGo {C O V : Type} [DecidableEq C] [DecidableEq V]
    (options : C → O → V) (targets : List O) (allCases : List C) :
    List C → List C → List (C × List C)
  | [], _ => []
  | c :: rest, processed =>
    if c ∈ processed then processCasesGo options targets allCases rest processed
    else
      (c, similarCases options targets allCases c) ::
        processCasesGo options targets allCases rest
          (processed ++ similarCases options targets allCases c)

/-- `process_cases(cases, options, target_options)` (`src/setup.py` lines
680-722): the association list from each key to its class, insertion
ordered. -/
def processCases {C O V : Type} [DecidableEq C] [DecidableEq V]
    (cases : List C) (options : C → O → V) (targets : List O) :
    List (C × List C) :=
  processCasesGo options targets cases cases []

/-- The per-stage compute-once-and-copy pattern of `compute_torques`
(`src/platefo.py` lines 330-363 and analogues): for every `key, entries`
of the case dictionary, the stage result is computed on the key and its
columns are copied to `entries[1:]` — so every member of the class, key
included, ends up holding the value computed from the key. -/
def broadcastResults {C V' : Type} [DecidableEq C]
    (caseDict : List (C × List C)) (compute : C → V') (tbl : C → V') :
    C → V' :=
  caseDict.foldl (fun t p => fun c => if c ∈ p.2 then compute p.1 else t c) tbl

/-- Agreement on target options is reflexive. -/
theorem optionsEqOn_refl {C O V : Type} (options : C → O → V) (targets : List O)
    (a : C) : optionsEqOn options targets a a :=
  fun _ _ => rfl

/-- Agreement on target options is symmetric. -/
theorem optionsEqOn_symm {C O V : Type} (options : C → O → V) (targets : List O)
    (a b : C) (h : optionsEqOn options targets a b) :
    optionsEqOn options targets b a :=
  fun t ht => (h t ht).symm

/-- Agreement on target options is transitive. -/
theorem optionsEqOn_trans {C O V : Type} (options : C → O → V) (targets : List O)
    (a b c : C) (hab : optionsEqOn options targets a b)
    (hbc : optionsEqOn options targets b c) :
    optionsEqOn options targets a c :=
  fun t ht => (hab t ht).trans (hbc t ht)

/-- Membership in a fresh key's class. -/
theorem mem_similarCases {C O V : Type} [DecidableEq C] [DecidableEq V]
    (options : C → O → V) (targets : List O) (allCases : List C) (k x : C) :
    x ∈ similarCases options targets allCases k ↔
      x = k ∨ (x ∈ allCases ∧ x ≠ k ∧ optionsEqOn options targets k x) := by
  unfold similarCases
  rw [List.mem_cons, List.mem_filter]
  simp only [Bool.and_eq_true, decide_eq_true_eq, optionsAgreeB,
    List.all_eq_true, decide_eq_true_eq]
  constructor
  · rintro (h | ⟨hmem, hne, hall⟩)
    · exact Or.inl h
    · exact Or.inr ⟨hmem, hne, hall⟩
  · rintro (h | ⟨hmem, hne, hall⟩)
    · exact Or.inl h
    · exact Or.inr ⟨hmem, hne, hall⟩

/-- Every member of a key's class agrees with the key. -/
theorem similarCases_agrees {C O V : Type} [DecidableEq C] [DecidableEq V]
    (options : C → O → V) (targets : List O) (allCases : List C) (k x : C)
    (hx : x ∈ similarCases options targets allCases k) :
    optionsEqOn options targets k x := by
  rcases (mem_similarCases options targets allCases k x).mp hx with rfl | ⟨_, _, h⟩
  · exact optionsEqOn_refl options targets x
  · exact h

/-- Keys emitted by the loop were not in `processed_cases` on entry. -/
theorem processCasesGo_keys_not_processed {C O V : Type} [DecidableEq C]
    [DecidableEq V] (options : C → O → V) (targets : List O) (allCases : List C) :
    ∀ (rest processed : List C) (p : C × List C),
      p ∈ processCasesGo options targets allCases rest processed →
        p.1 ∉ processed := by
  intro rest
  induction rest with
  | nil => intro processed p hp; simp [processCasesGo] at hp
  | cons c rest ih =>
    intro processed p hp
    rw [processCasesGo] at hp
    by_cases hc : c ∈ processed
    · rw [if_pos hc] at hp
      exact ih processed p hp
    · rw [if_neg hc] at hp
      rcases List.mem_cons.mp hp with heq | htail
      · rw [heq]; exact hc
      · intro hmem
        exact ih _ p htail (List.mem_append.mpr (Or.inl hmem))

/-- Every emitted entry's key comes from the remaining case list and its
class is `similarCases` of the key. -/
theorem processCasesGo_shape {C O V : Type} [DecidableEq C] [DecidableEq V]
    (options : C → O → V) (targets : List O) (allCases : List C) :
    ∀ (rest processed : List C) (p : C × List C),
      p ∈ processCasesGo options targets allCases rest processed →
        p.1 ∈ rest ∧ p.2 = similarCases options targets allCases p.1 := by
  intro rest
  induction rest with
  | nil => intro processed p hp; simp [processCasesGo] at hp
  | cons c rest ih =>
    intro processed p hp
    rw [processCasesGo] at hp
    by_cases hc : c ∈ processed
    · rw [if_pos hc] at hp
      obtain ⟨h1, h2⟩ := ih processed p hp
      exact ⟨List.mem_cons_of_mem c h1, h2⟩
    · rw [if_neg hc] at hp
      rcases List.mem_cons.mp hp with heq | htail
      · rw [heq]
        exact ⟨List.mem_cons_self c rest, rfl⟩
      · obtain ⟨h1, h2⟩ := ih _ p htail
        exact ⟨List.mem_cons_of_mem c h1, h2⟩

/-- No later entry's key belongs to an earlier entry's class. -/
theorem processCasesGo_pairwise {C O V : Type} [DecidableEq C] [DecidableEq V]
    (options : C → O → V) (targets : List O) (allCases : List C) :
    ∀ (rest processed : List C),
      (processCasesGo options targets allCases rest processed).Pairwise
        (fun p q => q.1 ∉ p.2) := by
  intro rest
  induction rest with
  | nil => intro processed; simp [processCasesGo]
  | cons c rest ih =>
    intro processed
    rw [processCasesGo]
    by_cases hc : c ∈ processed
    · rw [if_pos hc]; exact ih processed
    · rw [if_neg hc]
      refine List.Pairwise.cons ?_ (ih _)
      intro q hq
      have := processCasesGo_keys_not_processed options targets allCases rest
        (processed ++ similarCases options targets allCases c) q hq
      intro hmem
      exact this (List.mem_append.mpr (Or.inr hmem))

/-- Every case from the remaining list lands in `processed_cases` or in some
emitted class. -/
theorem processCasesGo_cover {C O V : Type} [DecidableEq C] [DecidableEq V]
    (options : C → O → V) (targets : List O) (allCases : List C) :
    ∀ (rest processed : List C), ∀ c ∈ rest,
      c ∈ processed ∨
        ∃ p ∈ processCasesGo options targets allCases rest processed, c ∈ p.2 := by
  intro rest
  induction rest with
  | nil => intro processed c hc; simp at hc
  | cons k rest ih =>
    intro processed c hc
    rw [processCasesGo]
    by_cases hk : k ∈ processed
    · rw [if_pos hk]
      rcases List.mem_cons.mp hc with heq | htail
      · rw [heq]; exact Or.inl hk
      · exact ih processed c htail
    · rw [if_neg hk]
      rcases List.mem_cons.mp hc with heq | htail
      · refine Or.inr ⟨(k, similarCases options targets allCases k),
          List.mem_cons_self _ _, ?_⟩
        rw [heq]
        exact List.mem_cons_self k _
      · rcases ih (processed ++ similarCases options targets allCases k) c htail with
          hmem | ⟨p, hp, hcp⟩
        · rcases List.mem_append.mp hmem with h1 | h2
          · exact Or.inl h1
          · exact Or.inr ⟨(k, similarCases options targets allCases k),
              List.mem_cons_self _ _, h2⟩
        · exact Or.inr ⟨p, List.mem_cons_of_mem _ hp, hcp⟩

/-- Strengthen a pairwise relation using per-entry facts. -/
theorem pairwiseStrengthen {α : Type} {S T : α → α → Prop} {P : α → Prop} :
    ∀ {l : List α}, l.Pairwise S → (∀ p ∈ l, P p) →
      (∀ p q, P p → P q → S p q → T p q) → l.Pairwise T := by
  intro l hpair
  induction hpair with
  | nil => intro _ _; exact List.Pairwise.nil
  | cons hhead _ ih =>
    intro hP himp
    refine List.Pairwise.cons ?_ (ih (fun p hp => hP p (List.mem_cons_of_mem _ hp)) himp)
    intro q hq
    exact himp _ q (hP _ (List.mem_cons_self _ _))
      (hP q (List.mem_cons_of_mem _ hq)) (hhead q hq)

/-- `broadcastResults` leaves untouched a case in none of the classes. -/
theorem broadcastResults_not_mem {C V' : Type} [DecidableEq C] :
    ∀ (R : List (C × List C)) (compute : C → V') (tbl : C → V') (c : C),
      (∀ q ∈ R, c ∉ q.2) → broadcastResults R compute tbl c = tbl c := by
  intro R
  induction R with
  | nil => intro _ _ _ _; rfl
  | cons p R ih =>
    intro compute tbl c hnot
    show broadcastResults R compute
      (fun x => if x ∈ p.2 then compute p.1 else tbl x) c = tbl c
    rw [ih compute _ c (fun q hq => hnot q (List.mem_cons_of_mem p hq))]
    rw [if_neg (hnot p (List.mem_cons_self p R))]

/-- Under pairwise-disjoint classes, `broadcastResults` assigns every class
member the value computed from its class key. -/
theorem broadcastResults_spec {C V' : Type} [DecidableEq C] :
    ∀ (R : List (C × List C)),
      R.Pairwise (fun p q => ∀ x, x ∈ p.2 → x ∉ q.2) →
      ∀ (compute : C → V') (tbl : C → V') (p : C × List C), p ∈ R →
        ∀ c ∈ p.2, broadcastResults R compute tbl c = compute p.1 := by
  intro R
  induction R with
  | nil => intro _ _ _ p hp; simp at hp
  | cons p0 R ih =>
    intro hpair compute tbl p hp c hc
    show broadcastResults R compute
      (fun x => if x ∈ p0.2 then compute p0.1 else tbl x) c = compute p.1
    rcases List.mem_cons.mp hp with heq | htail
    · have hnot : ∀ q ∈ R, c ∉ q.2 := by
        intro q hq
        exact (List.pairwise_cons.mp hpair).1 q hq c (heq ▸ hc)
      rw [broadcastResults_not_mem R compute _ c hnot]
      rw [if_pos (show c ∈ p0.2 from heq ▸ hc)]
      rw [heq]
    · exact ih (List.pairwise_cons.mp hpair).2 compute _ p htail c hc

/-- C7: for every list of cases, options mapping, and target-option list,
`process_cases` returns a partition of the cases into equivalence classes:
every case appears in a class and in only one class, each class's dictionary
key is drawn from the cases and is a member of its own class, a case belongs
to a class exactly when it agrees with the key on every target option, and
the compute-once-per-class broadcast (run the stage on the key, copy the
columns to every other member) gives every case the value computed from its
class's key. -/
theorem process_cases_is_partition {C O V V' : Type} [DecidableEq C] [DecidableEq V]
    (cases : List C) (options : C → O → V) (targets : List O) :
    (∀ p ∈ processCases cases options targets, p.1 ∈ cases ∧ p.1 ∈ p.2) ∧
    (∀ c ∈ cases, ∃ p ∈ processCases cases options targets, c ∈ p.2) ∧
    (∀ p ∈ processCases cases options targets,
      ∀ q ∈ processCases cases options targets,
        ∀ c : C, c ∈ p.2 → c ∈ q.2 → p = q) ∧
    (∀ p ∈ processCases cases options targets, ∀ c ∈ cases,
      (c ∈ p.2 ↔ optionsEqOn options targets c p.1)) ∧
    (∀ (compute : C → V') (tbl : C → V'),
      ∀ p ∈ processCases cases options targets, ∀ c ∈ p.2,
        broadcastResults (processCases cases options targets) compute tbl c =
          compute p.1) := by
  have hshape : ∀ p ∈ processCases cases options targets,
      p.1 ∈ cases ∧ p.2 = similarCases options targets cases p.1 :=
    fun p hp => processCasesGo_shape options targets cases cases [] p hp
  have hpair : (processCases cases options targets).Pairwise
      (fun p q => q.1 ∉ p.2) :=
    processCasesGo_pairwise options targets cases cases []
  have hdisj : (processCases cases options targets).Pairwise
      (fun p q => ∀ x, x ∈ p.2 → x ∉ q.2) := by
    refine pairwiseStrengthen hpair hshape ?_
    intro p q hp hq hS x hxp hxq
    have hagp : optionsEqOn options targets p.1 x := by
      rw [hp.2] at hxp
      exact similarCases_agrees options targets cases p.1 x hxp
    have hagq : optionsEqOn options targets q.1 x := by
      rw [hq.2] at hxq
      exact similarCases_agrees options targets cases q.1 x hxq
    have hagpq : optionsEqOn options targets p.1 q.1 :=
      optionsEqOn_trans options targets p.1 x q.1 hagp
        (optionsEqOn_symm options targets q.1 x hagq)
    refine hS ?_
    rw [hp.2, mem_similarCases]
    by_cases heq : q.1 = p.1
    · exact Or.inl heq
    · exact Or.inr ⟨hq.1, heq, hagpq⟩
  refine ⟨?_, ?_, ?_, ?_, ?_⟩
  · intro p hp
    refine ⟨(hshape p hp).1, ?_⟩
    rw [(hshape p hp).2]
    exact List.mem_cons_self _ _
  · intro c hc
    rcases processCasesGo_cover options targets cases cases [] c hc with h | h
    · simp at h
    · exact h
  · intro p hp q hq c hcp hcq
    by_cases heq : p = q
    · exact heq
    · exfalso
      have hsym : Symmetric (fun p q : C × List C =>
          (∀ x, x ∈ p.2 → x ∉ q.2) ∨ (∀ x, x ∈ q.2 → x ∉ p.2)) :=
        fun a b h => h.symm
      have hT := (hdisj.imp (fun h => Or.inl h)).forall hsym hp hq heq
      rcases hT with h | h
      · exact h c hcp hcq
      · exact h c hcq hcp
  · intro p hp c hc
    rw [(hshape p hp).2, mem_similarCases]
    constructor
    · rintro (rfl | ⟨_, _, hagree⟩)
      · exact optionsEqOn_refl options targets _
      · exact optionsEqOn_symm options targets p.1 c hagree
    · intro hagree
      by_cases heq : c = p.1
      · exact Or.inl heq
      · exact Or.inr ⟨hc, heq, optionsEqOn_symm options targets c p.1 hagree⟩
  · intro compute tbl p hp c hc
    exact broadcastResults_spec (processCases cases options targets) hdisj
      compute tbl p hp c hc

/-- Witness for `process_cases_is_partition` on three concrete cases where
cases 0 and 1 agree on the single target option and case 2 differs. -/
theorem process_cases_is_partition_witness :
    (0 : ℕ) ∈ [0, 1, 2] ∧
    ∃ p ∈ processCases [0, 1, 2]
        (fun c _t : ℕ => if c = 2 then (1 : ℕ) else 0) [0],
      (0 : ℕ) ∈ p.2 :=
  ⟨by decide,
    (@process_cases_is_partition ℕ ℕ ℕ ℕ _ _ [0, 1, 2]
      (fun c _t : ℕ => if c = 2 then (1 : ℕ) else 0) [0]).2.1 0 (by decide)⟩
